import Mathlib

/-!
Shallow embedding of the Activity Evidence Collection subsystem of
win_activity_viewer_pro.py: the snapshot helpers safe_copy_db and
query_sqlite_file, the extractors get_recent_files, get_event_logs,
get_chrome_history, get_edge_history and get_firefox_history, and the
plain-text body built by ActivityViewer.on_export.  Effectful operations
(filesystem, sqlite, the event-log API) are modelled by explicit outcome
values passed as arguments; each Lean definition mirrors the control flow
of the Python function whose name it keeps.
-/

namespace WinActivity

/-- Identifier of a temporary file allocated by tempfile.mkstemp. -/
abbrev TmpFile := Nat

/-- Environment outcome of the copy attempt inside safe_copy_db
(win_activity_viewer_pro.py lines 50-60): the source path may not exist,
tempfile.mkstemp may raise before any file exists, shutil.copy2 may raise
after the temporary file was created, or everything may succeed. -/
inductive CopyOutcome where
  | srcMissing
  | mkstempFails
  | copyFails (tmp : TmpFile)
  | ok (tmp : TmpFile)
deriving DecidableEq

/-- Result of safe_copy_db: the value returned to the caller together with
the temporary files still on disk when the call returns. -/
structure CopyResult where
  result : Option TmpFile
  leftover : List TmpFile
deriving DecidableEq

/-- Embedding of safe_copy_db (lines 50-60).  When os.path.exists is false
or mkstemp raises, None is returned and no temporary file exists.  When
shutil.copy2 raises after mkstemp succeeded, the except branch returns
None without removing the file mkstemp created, so it stays on disk. -/
def safe_copy_db : CopyOutcome → CopyResult
  | .srcMissing => ⟨none, []⟩
  | .mkstempFails => ⟨none, []⟩
  | .copyFails t => ⟨none, [t]⟩
  | .ok t => ⟨some t, [t]⟩

/-- Value of one selected sqlite column as seen by the Python f-string:
either a string or SQL NULL (Python None, rendered as the text None). -/
inductive SVal where
  | str (v : String)
  | null
deriving DecidableEq

/-- Conversion applied by a Python f-string interpolation. -/
def SVal.pyStr : SVal → String
  | .str v => v
  | .null => "None"

/-- Python truthiness of the value: None and the empty string are falsy. -/
def SVal.truthy : SVal → Bool
  | .str v => !(v == "")
  | .null => false

/-- One row of the browser-history SELECT: the url and title columns
(the selected visit-time column is never read by the Python code). -/
structure UrlRow where
  url : SVal
  title : SVal
deriving DecidableEq

/-- Outcome of opening and querying the snapshot with sqlite3
(lines 67-70): connect or execute raises (corrupt or zero-byte file,
missing table), or the full ordered result set of the query is produced. -/
inductive QueryOutcome where
  | fail (msg : String)
  | ok (rows : List UrlRow)
deriving DecidableEq

/-- Effect of the SQL clause LIMIT ? for a nonnegative bound: the engine
returns at most that many of the ordered rows. -/
def QueryOutcome.limitTo : QueryOutcome → Nat → QueryOutcome
  | .fail m, _ => .fail m
  | .ok rows, n => .ok (rows.take n)

/-- Result of query_sqlite_file: the row list returned to the caller plus
the temporary files still on disk when the call returns. -/
structure QueryResult where
  rows : List UrlRow
  leftover : List TmpFile
deriving DecidableEq

/-- Embedding of query_sqlite_file (lines 62-78).  If safe_copy_db yields
None the function returns the empty row list at once, inheriting whatever
safe_copy_db left on disk.  Otherwise the query runs (an exception is
absorbed and replaced by the empty row list) and os.remove deletes the
copy on both paths; the remove call succeeding is modelled directly since
its failure is swallowed by the code. -/
def query_sqlite_file (copy : CopyOutcome) (db : QueryOutcome) : QueryResult :=
  match safe_copy_db copy with
  | ⟨none, left⟩ => ⟨[], left⟩
  | ⟨some _, _⟩ =>
    match db with
    | .fail _ => ⟨[], []⟩
    | .ok rows => ⟨rows, []⟩

/-- Line built for one history row (lines 125-128): the title if truthy,
else an em-dash placeholder, then the separator, then the url. -/
def formatRow (r : UrlRow) : String :=
  (if r.title.truthy then r.title.pyStr else "—") ++ "  —  " ++ r.url.pyStr

/-- Embedding of get_chrome_history (lines 118-129).  pathExists models
os.path.exists on the resolved History path; copy and db describe the
snapshot and query outcomes for that path. -/
def get_chrome_history (pathExists : Bool) (copy : CopyOutcome)
    (db : QueryOutcome) (limit : Nat) : List String :=
  if pathExists then
    ((query_sqlite_file copy (db.limitTo limit)).rows).map formatRow
  else []

/-- Embedding of get_edge_history (lines 131-142); same shape as Chrome
with a different resolved path. -/
def get_edge_history (pathExists : Bool) (copy : CopyOutcome)
    (db : QueryOutcome) (limit : Nat) : List String :=
  if pathExists then
    ((query_sqlite_file copy (db.limitTo limit)).rows).map formatRow
  else []

/-- Embedding of get_firefox_history (lines 144-163).  listFails models
os.listdir raising inside the try block; profs is the list of profile
subdirectories, of which only the first is inspected. -/
def get_firefox_history (profilesExists : Bool) (listFails : Bool)
    (profs : List String) (copy : CopyOutcome) (db : QueryOutcome)
    (limit : Nat) : List String :=
  if profilesExists then
    if listFails then []
    else if profs.isEmpty then []
    else ((query_sqlite_file copy (db.limitTo limit)).rows).map formatRow
  else []

/-- Comparison of two code-point sequences, the order Python uses to
compare strings: lexicographic on code points. -/
def charsLe : List Char → List Char → Bool
  | [], _ => true
  | _ :: _, [] => false
  | a :: as, b :: bs =>
    if a.toNat < b.toNat then true
    else if b.toNat < a.toNat then false
    else charsLe as bs

/-- Python string comparison a <= b. -/
def strLe (a b : String) : Bool := charsLe a.data b.data

/-- Descending insertion used to model sorted(names, reverse=True): the
new name is placed before the first strictly smaller name. -/
def insertDesc (x : String) : List String → List String
  | [] => [x]
  | a :: t => if strLe x a then a :: insertDesc x t else x :: a :: t

/-- Model of sorted(names, reverse=True) from line 85.  Ties are
identical strings, so any reverse-lexicographic sort produces the same
list as the stable sort Python performs. -/
def sortDesc : List String → List String
  | [] => []
  | x :: t => insertDesc x (sortDesc t)

/-- Embedding of get_recent_files (lines 80-89).  dirExists models
os.path.exists on the Recent folder, listFails an exception inside the
try block, names the os.listdir result, and isFile the per-entry
os.path.isfile test.  The code sorts all names in reverse order, keeps
regular files, and truncates with the slice to limit entries. -/
def get_recent_files (dirExists : Bool) (listFails : Bool)
    (names : List String) (isFile : String → Bool) (limit : Nat) : List String :=
  if dirExists then
    if listFails then []
    else ((sortDesc names).filter isFile).take limit
  else []

/-- EventID attribute of a log entry as seen through int(ev.EventID):
the conversion succeeds with an integer, raises on a non-numeric value
whose textual form is s, or the attribute is missing entirely. -/
inductive EventIDVal where
  | num (n : Int)
  | raw (s : String)
  | missing
deriving DecidableEq

/-- The code value bound to ev_id at lines 103-106: an integer, or the
non-numeric fallback produced by getattr (the raw value, or the text
unknown when the attribute is absent). -/
inductive EvCode where
  | num (n : Int)
  | txt (s : String)
deriving DecidableEq

/-- Computation of ev_id (lines 103-106).  Python's bitwise-and with
0xFFFF equals reduction mod 2 to the 16, also for negative integers, and
Lean's Int emod matches Python's semantics for a positive modulus. -/
def evCode : EventIDVal → EvCode
  | .num n => .num (n % 65536)
  | .raw s => .txt s
  | .missing => .txt "unknown"

/-- Rendering of ev_id inside the f-string at line 110. -/
def EvCode.render : EvCode → String
  | .num n => toString n
  | .txt s => s

/-- Membership test at line 107: Python's in uses equality, and a string
ev_id is never equal to any integer of the filter list.  A filter of none
models event_ids being None, in which case every entry passes. -/
def evMatches (ids : Option (List Int)) (c : EvCode) : Bool :=
  match ids with
  | none => true
  | some l =>
    match c with
    | .num n => l.contains n
    | .txt _ => false

/-- One entry of the batch returned by win32evtlog.ReadEventLog, with the
pieces of the entry the loop body reads.  tsStr is the timestamp string
ts_str evaluates to; procFails models the per-entry statements after the
filter test raising (for example ts.Format failing), with errMsg the text
of that exception. -/
structure LogEntry where
  eventID : EventIDVal
  tsStr : String
  sourceName : String
  procFails : Bool
  errMsg : String
deriving DecidableEq

/-- Diagnostic appended at line 115 when the read or the loop body raises. -/
def readErr (m : String) : String := "Fehler beim Lesen des EventLogs: " ++ m

/-- Line appended for an accepted entry (lines 108-110). -/
def formatEntry (e : LogEntry) (c : EvCode) : String :=
  e.tsStr ++ "  |  EventID: " ++ c.render ++ "  |  Source: " ++ e.sourceName

/-- Filter decision for one entry, with ev_id computed as in the code. -/
def entryMatches (ids : Option (List Int)) (e : LogEntry) : Bool :=
  evMatches ids (evCode e.eventID)

/-- Formatted line of one entry, with ev_id computed as in the code. -/
def matchLine (e : LogEntry) : String := formatEntry e (evCode e.eventID)

/-- Embedding of the scan loop (lines 102-113) carrying the running
count.  A matching entry whose processing raises sends control to the
except branch, which appends one diagnostic after the results gathered so
far and ends the function; otherwise the line is appended and the loop
breaks once count reaches max_events. -/
def scanGo (ids : Option (List Int)) (maxE : Nat) :
    List LogEntry → Nat → List String
  | [], _ => []
  | e :: rest, count =>
    if entryMatches ids e then
      if e.procFails then [readErr e.errMsg]
      else if maxE ≤ count + 1 then [matchLine e]
      else matchLine e :: scanGo ids maxE rest (count + 1)
    else scanGo ids maxE rest count

/-- Outcome of the single win32evtlog.ReadEventLog call at line 101: the
call raises, or it returns one batch of entries in newest-first order
(the flags request a sequential backwards read). -/
inductive ReadResult where
  | fail (msg : String)
  | ok (events : List LogEntry)
deriving DecidableEq

/-- Outcome of win32evtlog.OpenEventLog at line 94: the call raises with
a message, or it yields a handle whose read behaves as described. -/
inductive OpenResult where
  | fail (msg : String)
  | ok (read : ReadResult)
deriving DecidableEq

/-- Embedding of get_event_logs (lines 91-116). -/
def get_event_logs (ch : OpenResult) (event_ids : Option (List Int))
    (max_events : Nat) : List String :=
  match ch with
  | .fail msg => ["Fehler: " ++ msg]
  | .ok (.fail msg) => [readErr msg]
  | .ok (.ok events) => scanGo event_ids max_events events 0

/-- Filtered, formatted lines of a full entry list, used to state what
the scan computes when nothing raises. -/
def matchLines (ids : Option (List Int)) (entries : List LogEntry) : List String :=
  (entries.filter (entryMatches ids)).map matchLine

/-- Join with newline, as the str.join calls in on_export. -/
def joinLines (xs : List String) : String := String.intercalate "\n" xs

/-- Section body used by on_export (lines 351-356): the joined lines, or
the placeholder when the list is empty. -/
def sectionText (xs : List String) : String :=
  if xs.isEmpty then "Keine Einträge." else joinLines xs

/-- Embedding of the body string built by ActivityViewer.on_export
(lines 341-356) from the six extractor results, with dt the formatted
current time. -/
def exportBody (dt : String) (files logins starts chrome edge firefox : List String) : String :=
  "=== Export: WinActivityViewer Pro (" ++ dt ++ ") ===\n\n" ++
  "=== Dateien (Recent) ===\n" ++ sectionText files ++ "\n\n" ++
  "=== Logins/Logouts ===\n" ++ sectionText logins ++ "\n\n" ++
  "=== Start / Shutdown ===\n" ++ sectionText starts ++ "\n\n" ++
  "=== Chrome (Top) ===\n" ++ sectionText chrome ++ "\n\n" ++
  "=== Edge (Top) ===\n" ++ sectionText edge ++ "\n\n" ++
  "=== Firefox (Top) ===\n" ++ sectionText firefox ++ "\n"

/-- Normalized record of the data model: a primary label and an optional
secondary text. -/
structure Record where
  primary : String
  secondary : Option String
deriving DecidableEq

/-- Modelled from the spec: the per-record line format the specification
claims for the full export, a primary and secondary joined by an em dash
for records with a secondary field, and a dash-prefixed primary for
records without one. -/
def renderLineClaim (r : Record) : String :=
  match r.secondary with
  | some s => r.primary ++ " — " ++ s
  | none => "- " ++ r.primary

/-- Per-record line the code actually produces: primary and secondary
joined by the spaced em-dash separator, and the bare primary for records
without a secondary field. -/
def renderLine (r : Record) : String :=
  match r.secondary with
  | some s => r.primary ++ "  —  " ++ s
  | none => r.primary

/-- Section of the record-level rendering: one line per record via the
given line format, or the placeholder when the category is empty. -/
def sectionOfRecords (line : Record → String) (rs : List Record) : String :=
  if rs.isEmpty then "Keine Einträge." else joinLines (rs.map line)

/-- Record-level rendering of the full export: one section per category
in the fixed order, each with its stable header. -/
def renderFull (line : Record → String) (dt : String)
    (files logins starts chrome edge firefox : List Record) : String :=
  "=== Export: WinActivityViewer Pro (" ++ dt ++ ") ===\n\n" ++
  "=== Dateien (Recent) ===\n" ++ sectionOfRecords line files ++ "\n\n" ++
  "=== Logins/Logouts ===\n" ++ sectionOfRecords line logins ++ "\n\n" ++
  "=== Start / Shutdown ===\n" ++ sectionOfRecords line starts ++ "\n\n" ++
  "=== Chrome (Top) ===\n" ++ sectionOfRecords line chrome ++ "\n\n" ++
  "=== Edge (Top) ===\n" ++ sectionOfRecords line edge ++ "\n\n" ++
  "=== Firefox (Top) ===\n" ++ sectionOfRecords line firefox ++ "\n"

/-- Record carried by one browser-history row: the title-or-placeholder
as primary and the url as secondary. -/
def rowRecord (r : UrlRow) : Record :=
  ⟨if r.title.truthy then r.title.pyStr else "—", some r.url.pyStr⟩

/-- Totality of the code-point comparison. -/
theorem charsLe_total : ∀ as bs : List Char, charsLe as bs = true ∨ charsLe bs as = true := by
  intro as
  induction as with
  | nil => intro bs; left; rfl
  | cons a as ih =>
    intro bs
    cases bs with
    | nil => right; rfl
    | cons b bs =>
      simp only [charsLe]
      rcases Nat.lt_trichotomy a.toNat b.toNat with h | h | h
      · left; simp [h]
      · have hn : ¬ a.toNat < b.toNat := by omega
        have hn2 : ¬ b.toNat < a.toNat := by omega
        simpa [hn, hn2] using ih bs
      · right; simp [h]

/-- Transitivity of the code-point comparison. -/
theorem charsLe_trans : ∀ {as bs cs : List Char},
    charsLe as bs = true → charsLe bs cs = true → charsLe as cs = true := by
  intro as
  induction as with
  | nil => intro bs cs _ _; rfl
  | cons a as ih =>
    intro bs cs h1 h2
    cases bs with
    | nil => simp [charsLe] at h1
    | cons b bs =>
      cases cs with
      | nil => simp [charsLe] at h2
      | cons c cs =>
        simp only [charsLe] at h1 h2 ⊢
        rcases Nat.lt_trichotomy a.toNat b.toNat with hab | hab | hab <;>
          rcases Nat.lt_trichotomy b.toNat c.toNat with hbc | hbc | hbc
        all_goals
          first
          | (simp only [show a.toNat < c.toNat by omega, if_true])
          | (simp [show ¬ a.toNat < b.toNat by omega,
              show b.toNat < a.toNat by omega] at h1)
          | (simp [show ¬ b.toNat < c.toNat by omega,
              show c.toNat < b.toNat by omega] at h2)
          | (have hac : ¬ a.toNat < c.toNat := by omega
             have hca : ¬ c.toNat < a.toNat := by omega
             simp only [hac, hca, if_false, ite_false]
             have h1x : charsLe as bs = true := by
               simpa [show ¬ a.toNat < b.toNat by omega,
                 show ¬ b.toNat < a.toNat by omega] using h1
             have h2x : charsLe bs cs = true := by
               simpa [show ¬ b.toNat < c.toNat by omega,
                 show ¬ c.toNat < b.toNat by omega] using h2
             exact ih h1x h2x)

/-- Antisymmetry of the code-point comparison. -/
theorem charsLe_antisymm : ∀ {as bs : List Char},
    charsLe as bs = true → charsLe bs as = true → as = bs := by
  intro as
  induction as with
  | nil =>
    intro bs _ h2
    cases bs with
    | nil => rfl
    | cons b bs => simp [charsLe] at h2
  | cons a as ih =>
    intro bs h1 h2
    cases bs with
    | nil => simp [charsLe] at h1
    | cons b bs =>
      simp only [charsLe] at h1 h2
      rcases Nat.lt_trichotomy a.toNat b.toNat with hab | hab | hab
      · simp [show ¬ b.toNat < a.toNat by omega, hab] at h2
      · have heq : a = b := Char.ext (UInt32.ext hab)
        have h1x : charsLe as bs = true := by
          simpa [show ¬ a.toNat < b.toNat by omega,
            show ¬ b.toNat < a.toNat by omega] using h1
        have h2x : charsLe bs as = true := by
          simpa [show ¬ a.toNat < b.toNat by omega,
            show ¬ b.toNat < a.toNat by omega] using h2
        rw [heq, ih h1x h2x]
      · simp [show ¬ a.toNat < b.toNat by omega, hab] at h1

/-- Totality of the string comparison. -/
theorem strLe_total (a b : String) : strLe a b = true ∨ strLe b a = true :=
  charsLe_total a.data b.data

/-- Transitivity of the string comparison. -/
theorem strLe_trans {a b c : String} (h1 : strLe a b = true)
    (h2 : strLe b c = true) : strLe a c = true :=
  charsLe_trans h1 h2

/-- Antisymmetry of the string comparison. -/
theorem strLe_antisymm {a b : String} (h1 : strLe a b = true)
    (h2 : strLe b a = true) : a = b := by
  cases a with
  | mk da =>
    cases b with
    | mk db => exact congrArg String.mk (charsLe_antisymm h1 h2)

instance : IsAntisymm String (fun a b => strLe b a = true) :=
  ⟨fun _x _y h1 h2 => strLe_antisymm h2 h1⟩

/-- Descending insertion only rearranges: the result is a permutation of
the element followed by the old list. -/
theorem insertDesc_perm (x : String) : ∀ l : List String, List.Perm (insertDesc x l) (x :: l) := by
  intro l
  induction l with
  | nil => exact List.Perm.refl _
  | cons a t ih =>
    simp only [insertDesc]
    by_cases h : strLe x a = true
    · rw [if_pos h]
      exact (ih.cons a).trans (List.Perm.swap x a t)
    · rw [if_neg h]

/-- Model sort only rearranges the name list. -/
theorem sortDesc_perm : ∀ l : List String, List.Perm (sortDesc l) l := by
  intro l
  induction l with
  | nil => exact List.Perm.refl _
  | cons x t ih =>
    simpa only [sortDesc] using (insertDesc_perm x (sortDesc t)).trans (ih.cons x)

/-- Descending insertion preserves descending sortedness. -/
theorem sorted_insertDesc (x : String) : ∀ {l : List String},
    List.Sorted (fun a b => strLe b a = true) l →
    List.Sorted (fun a b => strLe b a = true) (insertDesc x l) := by
  intro l
  induction l with
  | nil => intro _; simp [insertDesc]
  | cons a t ih =>
    intro hs
    rw [List.sorted_cons] at hs
    obtain ⟨ha, ht⟩ := hs
    simp only [insertDesc]
    by_cases hxa : strLe x a = true
    · rw [if_pos hxa]
      rw [List.sorted_cons]
      refine ⟨?_, ih ht⟩
      intro y hy
      have hmem : y = x ∨ y ∈ t := by
        have := (insertDesc_perm x t).mem_iff.mp hy
        simpa using this
      rcases hmem with rfl | hyt
      · exact hxa
      · exact ha y hyt
    · have hax : strLe a x = true := (strLe_total x a).resolve_left hxa
      rw [if_neg hxa]
      rw [List.sorted_cons]
      refine ⟨?_, List.sorted_cons.mpr ⟨ha, ht⟩⟩
      intro y hy
      rcases List.mem_cons.mp hy with rfl | hyt
      · exact hax
      · exact strLe_trans (ha y hyt) hax

/-- Model sort produces a descending list. -/
theorem sorted_sortDesc : ∀ l : List String,
    List.Sorted (fun a b => strLe b a = true) (sortDesc l) := by
  intro l
  induction l with
  | nil => simp [sortDesc]
  | cons x t ih => exact sorted_insertDesc x ih

/-- Filtering commutes with the model sort: keeping the regular files of
the sorted listing equals sorting the regular-file names. -/
theorem filter_sortDesc (p : String → Bool) (l : List String) :
    (sortDesc l).filter p = sortDesc (l.filter p) := by
  have hperm : List.Perm ((sortDesc l).filter p) (sortDesc (l.filter p)) :=
    ((sortDesc_perm l).filter p).trans ((sortDesc_perm (l.filter p)).symm)
  exact List.eq_of_perm_of_sorted hperm ((sorted_sortDesc l).filter p)
    (sorted_sortDesc _)

/-- Length bound of the scan loop: the accumulated lines never exceed the
remaining budget, except that one line or diagnostic can be produced even
when the budget is already exhausted, because the loop appends before it
tests the count. -/
theorem scanGo_length_le (ids : Option (List Int)) (maxE : Nat) :
    ∀ (entries : List LogEntry) (count : Nat),
      (scanGo ids maxE entries count).length ≤ max (maxE - count) 1 := by
  intro entries
  induction entries with
  | nil => intro c; simp [scanGo]
  | cons e rest ih =>
    intro c
    simp only [scanGo]
    by_cases hm : entryMatches ids e = true
    · rw [if_pos hm]
      by_cases hf : e.procFails = true
      · rw [if_pos hf]; simp
      · rw [if_neg hf]
        by_cases hstop : maxE ≤ c + 1
        · rw [if_pos hstop]; simp
        · rw [if_neg hstop]
          have h := ih (c + 1)
          simp only [List.length_cons]
          omega
    · rw [if_neg hm]
      have h := ih c
      exact h

/-- When every matching entry formats without raising and the budget is
not yet exhausted, the scan returns the first remaining-budget many
filtered, formatted lines in channel order. -/
theorem scanGo_eq_take (ids : Option (List Int)) (maxE : Nat) :
    ∀ (entries : List LogEntry) (count : Nat),
      (∀ e ∈ entries, entryMatches ids e = true → e.procFails = false) →
      count < maxE →
      scanGo ids maxE entries count = (matchLines ids entries).take (maxE - count) := by
  intro entries
  induction entries with
  | nil => intro c _ _; simp [scanGo, matchLines]
  | cons e rest ih =>
    intro c hok hc
    simp only [scanGo, matchLines, List.filter_cons]
    by_cases hm : entryMatches ids e = true
    · have hpf : e.procFails = false := hok e (List.mem_cons_self e rest) hm
      rw [if_pos hm, if_neg (by simp [hpf]), if_pos hm]
      by_cases hstop : maxE ≤ c + 1
      · rw [if_pos hstop]
        have h1 : maxE - c = 1 := by omega
        simp [h1]
      · rw [if_neg hstop]
        have hrec := ih (c + 1)
          (fun a ha hma => hok a (List.mem_cons_of_mem e ha) hma) (by omega)
        rw [hrec]
        have h2 : maxE - c = (maxE - (c + 1)) + 1 := by omega
        rw [h2]
        simp [matchLines]
    · rw [if_neg hm, if_neg (by simp [hm])]
      exact ih c (fun a ha hma => hok a (List.mem_cons_of_mem e ha) hma) hc

/-- When a matching entry whose processing raises is reached before the
budget is exhausted, the scan returns the lines gathered before it plus
one diagnostic built from the exception. -/
theorem scanGo_fail (ids : Option (List Int)) (maxE : Nat) (bad : LogEntry)
    (hbm : entryMatches ids bad = true) (hbf : bad.procFails = true) :
    ∀ (pre rest : List LogEntry) (count : Nat),
      (∀ e ∈ pre, entryMatches ids e = true → e.procFails = false) →
      (matchLines ids pre).length + count < maxE →
      scanGo ids maxE (pre ++ bad :: rest) count
        = matchLines ids pre ++ [readErr bad.errMsg] := by
  intro pre
  induction pre with
  | nil =>
    intro rest c _ _
    simp only [List.nil_append, scanGo, matchLines, List.filter_nil, List.map_nil,
      List.nil_append]
    rw [if_pos hbm, if_pos hbf]
  | cons e pre ih =>
    intro rest c hok hlt
    simp only [List.cons_append, scanGo, List.append_eq]
    by_cases hm : entryMatches ids e = true
    · have hpf : e.procFails = false := hok e (List.mem_cons_self e pre) hm
      have hlen : (matchLines ids (e :: pre)).length
          = (matchLines ids pre).length + 1 := by
        simp [matchLines, List.filter_cons, hm]
      rw [if_pos hm, if_neg (by simp [hpf]), if_neg (by omega)]
      rw [ih rest (c + 1) (fun a ha hma => hok a (List.mem_cons_of_mem e ha) hma)
        (by omega)]
      simp [matchLines, List.filter_cons, hm]
    · rw [if_neg hm]
      have hlen : matchLines ids (e :: pre) = matchLines ids pre := by
        simp [matchLines, List.filter_cons, hm]
      rw [ih rest c (fun a ha hma => hok a (List.mem_cons_of_mem e ha) hma)
        (by rw [hlen] at hlt; exact hlt)]
      rw [hlen]

/-- Length bound shared by the three browser-history extractors: the SQL
LIMIT clause bounds the row set, queries that raise yield no rows, and a
missing snapshot yields no rows. -/
theorem history_rows_le (c : CopyOutcome) (db : QueryOutcome) (limit : Nat) :
    ((query_sqlite_file c (db.limitTo limit)).rows.map formatRow).length ≤ limit := by
  cases c <;> cases db <;>
    simp [query_sqlite_file, safe_copy_db, QueryOutcome.limitTo]

/-- Joining a section built from mapped record lines equals the
record-level section rendering. -/
theorem sectionText_map (f : Record → String) (rs : List Record) :
    sectionText (rs.map f) = sectionOfRecords f rs := by
  cases rs <;> rfl

/-- Claim C1, counterexample: with limit 0 and a channel whose open call
fails, get_event_logs returns one diagnostic record, so its length is not
bounded by the limit. -/
theorem eventlog_zero_limit_counterexample :
    ¬ ((get_event_logs (OpenResult.fail "Zugriff verweigert") none 0).length ≤ 0) := by
  decide

/-- Claim C1, amended: the file-based extractors return at most limit
entries on every source content (so limit 0 yields the empty sequence),
while get_event_logs guarantees only length at most max of max_events and
one, because the loop appends a record before testing the count and an
open or read failure contributes one diagnostic record. -/
theorem extractor_limit_bounds :
    (∀ (de lf : Bool) (names : List String) (isFile : String → Bool) (limit : Nat),
      (get_recent_files de lf names isFile limit).length ≤ limit) ∧
    (∀ (pe : Bool) (c : CopyOutcome) (db : QueryOutcome) (limit : Nat),
      (get_chrome_history pe c db limit).length ≤ limit) ∧
    (∀ (pe : Bool) (c : CopyOutcome) (db : QueryOutcome) (limit : Nat),
      (get_edge_history pe c db limit).length ≤ limit) ∧
    (∀ (pe lf : Bool) (profs : List String) (c : CopyOutcome) (db : QueryOutcome)
        (limit : Nat),
      (get_firefox_history pe lf profs c db limit).length ≤ limit) ∧
    (∀ (ch : OpenResult) (ids : Option (List Int)) (maxE : Nat),
      (get_event_logs ch ids maxE).length ≤ max maxE 1) := by
  refine ⟨?_, ?_, ?_, ?_, ?_⟩
  · intro de lf names isFile limit
    cases de <;> cases lf <;> simp [get_recent_files]
  · intro pe c db limit
    cases pe with
    | false => simp [get_chrome_history]
    | true => simpa [get_chrome_history] using history_rows_le c db limit
  · intro pe c db limit
    cases pe with
    | false => simp [get_edge_history]
    | true => simpa [get_edge_history] using history_rows_le c db limit
  · intro pe lf profs c db limit
    cases pe with
    | false => simp [get_firefox_history]
    | true =>
      cases lf with
      | true => simp [get_firefox_history]
      | false =>
        cases profs with
        | nil => simp [get_firefox_history]
        | cons p ps => simpa [get_firefox_history] using history_rows_le c db limit
  · intro ch ids maxE
    cases ch with
    | fail m => simp [get_event_logs]
    | ok rd =>
      cases rd with
      | fail m => simp [get_event_logs]
      | ok evs =>
        have h := scanGo_length_le ids maxE evs 0
        simpa [get_event_logs, Nat.sub_zero] using h

/-- Claim C2: evaluation of the code at the failing input.  When
shutil.copy2 raises after mkstemp created the temporary file, safe_copy_db
returns None and the temporary file is left on disk; the consuming
query_sqlite_file call returns with the file still present.  On every
other path, including a failing query against a good snapshot, no
temporary file survives the call. -/
theorem snapshot_leak_on_copy_failure :
    safe_copy_db (CopyOutcome.copyFails 0) = ⟨none, [0]⟩ ∧
    (query_sqlite_file (CopyOutcome.copyFails 0) (QueryOutcome.ok [])).leftover = [0] ∧
    (∀ (t : TmpFile) (db : QueryOutcome),
      (query_sqlite_file (CopyOutcome.ok t) db).leftover = []) ∧
    (∀ db : QueryOutcome, (query_sqlite_file CopyOutcome.srcMissing db).leftover = []) ∧
    (∀ db : QueryOutcome, (query_sqlite_file CopyOutcome.mkstempFails db).leftover = []) := by
  refine ⟨rfl, rfl, ?_, fun db => rfl, fun db => rfl⟩
  intro t db
  cases db <;> rfl

/-- Claim C3: when the event-log channel cannot be opened, get_event_logs
returns exactly one diagnostic record describing the failure and never an
empty sequence, for every filter and limit. -/
theorem open_failure_single_diagnostic :
    ∀ (msg : String) (ids : Option (List Int)) (maxE : Nat),
      get_event_logs (OpenResult.fail msg) ids maxE = ["Fehler: " ++ msg] ∧
      (get_event_logs (OpenResult.fail msg) ids maxE).length = 1 ∧
      get_event_logs (OpenResult.fail msg) ids maxE ≠ [] := by
  intro msg ids maxE
  exact ⟨rfl, rfl, by simp [get_event_logs]⟩

/-- Claim C4, counterexample: an absent channel surfaces as an open
failure, and get_event_logs then returns a one-element diagnostic
sequence, not the empty sequence. -/
theorem absent_channel_counterexample :
    get_event_logs (OpenResult.fail "Der angegebene Kanal existiert nicht") none 50 ≠ [] := by
  decide

/-- Claim C4, amended: when the resolved source path does not exist the
file-based extractors return the empty sequence and no exception
surfaces; the log-channel extractor instead absorbs the open failure into
a single diagnostic record. -/
theorem absent_source_amended :
    (∀ (lf : Bool) (names : List String) (isFile : String → Bool) (limit : Nat),
      get_recent_files false lf names isFile limit = []) ∧
    (∀ (c : CopyOutcome) (db : QueryOutcome) (limit : Nat),
      get_chrome_history false c db limit = []) ∧
    (∀ (c : CopyOutcome) (db : QueryOutcome) (limit : Nat),
      get_edge_history false c db limit = []) ∧
    (∀ (lf : Bool) (profs : List String) (c : CopyOutcome) (db : QueryOutcome)
        (limit : Nat),
      get_firefox_history false lf profs c db limit = []) ∧
    (∀ (db : QueryOutcome) (limit : Nat),
      get_chrome_history true CopyOutcome.srcMissing db limit = []) ∧
    (∀ (msg : String) (ids : Option (List Int)) (maxE : Nat),
      get_event_logs (OpenResult.fail msg) ids maxE = ["Fehler: " ++ msg]) := by
  exact ⟨fun lf names isFile limit => rfl, fun c db limit => rfl, fun c db limit => rfl,
    fun lf profs c db limit => rfl, fun db limit => rfl, fun msg ids maxE => rfl⟩

/-- Claim C5, counterexample: with limit 0 the scan still emits the first
matching entry before testing the count, instead of stopping as soon as
zero matches are accumulated. -/
theorem filter_scan_zero_limit_counterexample :
    get_event_logs
      (OpenResult.ok (ReadResult.ok [⟨EventIDVal.num 1, "t", "S", false, ""⟩]))
      (some [1]) 0 ≠ [] := by
  decide

/-- Claim C5, amended: for limit at least one, and matching entries whose
processing does not raise, get_event_logs returns exactly the first limit
filter-matching entries of the channel in channel (newest-first) order,
formatted; and the scan does not look past the point where limit matches
have been accumulated, since the result only depends on such a prefix. -/
theorem filtered_scan_amended :
    ∀ (ids : Option (List Int)) (maxE : Nat) (entries : List LogEntry),
      1 ≤ maxE →
      (∀ e ∈ entries, entryMatches ids e = true → e.procFails = false) →
      get_event_logs (OpenResult.ok (ReadResult.ok entries)) ids maxE
        = (matchLines ids entries).take maxE ∧
      (∀ pre rest : List LogEntry, entries = pre ++ rest →
        maxE ≤ (matchLines ids pre).length →
        get_event_logs (OpenResult.ok (ReadResult.ok entries)) ids maxE
          = get_event_logs (OpenResult.ok (ReadResult.ok pre)) ids maxE) := by
  intro ids maxE entries hmax hok
  have hmain : get_event_logs (OpenResult.ok (ReadResult.ok entries)) ids maxE
      = (matchLines ids entries).take maxE := by
    have h := scanGo_eq_take ids maxE entries 0 hok (by omega)
    simpa [get_event_logs] using h
  refine ⟨hmain, ?_⟩
  intro pre rest hsplit hlen
  have hokpre : ∀ e ∈ pre, entryMatches ids e = true → e.procFails = false := by
    intro e he hme
    exact hok e (by rw [hsplit]; exact List.mem_append_left rest he) hme
  have hpre : get_event_logs (OpenResult.ok (ReadResult.ok pre)) ids maxE
      = (matchLines ids pre).take maxE := by
    have h := scanGo_eq_take ids maxE pre 0 hokpre (by omega)
    simpa [get_event_logs] using h
  rw [hmain, hpre, hsplit]
  have happ : matchLines ids (pre ++ rest)
      = matchLines ids pre ++ matchLines ids rest := by
    simp [matchLines, List.filter_append]
  rw [happ, List.take_append_of_le_length hlen]

/-- Claim C5, witness: codes 1, 2, 3, 1, 2 with filter containing 1 and 2
and limit 3 yield exactly the first three matching lines. -/
theorem filtered_scan_amended_witness :
    get_event_logs (OpenResult.ok (ReadResult.ok
        [⟨EventIDVal.num 1, "t1", "S", false, ""⟩,
         ⟨EventIDVal.num 2, "t2", "S", false, ""⟩,
         ⟨EventIDVal.num 3, "t3", "S", false, ""⟩,
         ⟨EventIDVal.num 1, "t4", "S", false, ""⟩,
         ⟨EventIDVal.num 2, "t5", "S", false, ""⟩]))
      (some [1, 2]) 3
      = ["t1  |  EventID: 1  |  Source: S",
         "t2  |  EventID: 2  |  Source: S",
         "t4  |  EventID: 1  |  Source: S"] := by
  have h := (filtered_scan_amended (some [1, 2]) 3
    [⟨EventIDVal.num 1, "t1", "S", false, ""⟩,
     ⟨EventIDVal.num 2, "t2", "S", false, ""⟩,
     ⟨EventIDVal.num 3, "t3", "S", false, ""⟩,
     ⟨EventIDVal.num 1, "t4", "S", false, ""⟩,
     ⟨EventIDVal.num 2, "t5", "S", false, ""⟩]
    (by decide) (by decide)).1
  exact h.trans (by decide)

/-- Claim C6: a corrupt or zero-byte snapshot makes the sqlite open or
query raise; query_sqlite_file then yields no rows and each browser
extractor returns the empty sequence instead of propagating the error. -/
theorem corrupt_store_empty_result :
    (∀ (t : TmpFile) (m : String),
      (query_sqlite_file (CopyOutcome.ok t) (QueryOutcome.fail m)).rows = []) ∧
    (∀ (c : CopyOutcome) (m : String) (limit : Nat),
      get_chrome_history true c (QueryOutcome.fail m) limit = []) ∧
    (∀ (c : CopyOutcome) (m : String) (limit : Nat),
      get_edge_history true c (QueryOutcome.fail m) limit = []) ∧
    (∀ (c : CopyOutcome) (m : String) (p : String) (ps : List String) (limit : Nat),
      get_firefox_history true false (p :: ps) c (QueryOutcome.fail m) limit = []) := by
  refine ⟨fun t m => rfl, ?_, ?_, ?_⟩
  · intro c m limit; cases c <;> rfl
  · intro c m limit; cases c <;> rfl
  · intro c m p ps limit; cases c <;> rfl

/-- Claim C7: get_recent_files applied to an existing, readable directory
returns the regular-file names sorted in reverse lexicographic order,
non-file entries excluded, truncated to limit; in particular the example
directory with files b.txt and a.txt and subdirectory c yields exactly
those two files in reverse order. -/
theorem recent_files_sorted_filter_take :
    (∀ (names : List String) (isFile : String → Bool) (limit : Nat),
      get_recent_files true false names isFile limit
        = (sortDesc (names.filter isFile)).take limit) ∧
    get_recent_files true false ["b.txt", "a.txt", "c"] (fun s => !(s == "c")) 10
      = ["b.txt", "a.txt"] := by
  constructor
  · intro names isFile limit
    show ((sortDesc names).filter isFile).take limit = _
    rw [filter_sortDesc]
  · decide

set_option maxRecDepth 8192 in
/-- Claim C8, counterexample: in the exported body a record without a
secondary field appears as the bare primary (the recent-file name on its
own line), not in the dash-prefixed form the claim states, so the body
differs from the claimed rendering. -/
theorem export_line_format_counterexample :
    exportBody "d" ["a.txt"] [] [] [] [] []
      ≠ renderFull renderLineClaim "d" [⟨"a.txt", none⟩] [] [] [] [] [] ∧
    exportBody "d" ["a.txt"] [] [] [] [] []
      = "=== Export: WinActivityViewer Pro (d) ===\n\n"
        ++ "=== Dateien (Recent) ===\na.txt\n\n"
        ++ "=== Logins/Logouts ===\nKeine Einträge.\n\n"
        ++ "=== Start / Shutdown ===\nKeine Einträge.\n\n"
        ++ "=== Chrome (Top) ===\nKeine Einträge.\n\n"
        ++ "=== Edge (Top) ===\nKeine Einträge.\n\n"
        ++ "=== Firefox (Top) ===\nKeine Einträge.\n" := by
  exact ⟨by decide, by decide⟩

/-- Claim C8, amended: the export body is one section per category with
its stable header and the placeholder line for an empty category, and one
line per record, where a record with a secondary field renders as the
primary and secondary joined by the spaced em-dash separator and a record
without one renders as the bare primary. -/
theorem export_render_refines :
    (∀ (dt : String) (fr lr sr cr er xr : List Record),
      exportBody dt (fr.map renderLine) (lr.map renderLine) (sr.map renderLine)
          (cr.map renderLine) (er.map renderLine) (xr.map renderLine)
        = renderFull renderLine dt fr lr sr cr er xr) ∧
    (∀ r : UrlRow, formatRow r = renderLine (rowRecord r)) ∧
    (∀ name : String, renderLine ⟨name, none⟩ = name) := by
  refine ⟨?_, fun r => rfl, fun name => rfl⟩
  intro dt fr lr sr cr er xr
  simp only [exportBody, renderFull, sectionText_map]

/-- Claim C9: the filter decision uses the EventID reduced to its low 16
bits, so raw EventIDs congruent mod 2 to the 16 are indistinguishable to
the filter, and an EventID that does not parse as an integer becomes a
textual code that never matches a numeric filter set. -/
theorem eventid_low16_filter :
    (∀ n : Int, evCode (EventIDVal.num n) = EvCode.num (n % 65536)) ∧
    (∀ n₁ n₂ : Int, n₁ % 65536 = n₂ % 65536 →
      ∀ ids : Option (List Int),
        evMatches ids (evCode (EventIDVal.num n₁))
          = evMatches ids (evCode (EventIDVal.num n₂))) ∧
    (∀ (s : String) (l : List Int),
      evMatches (some l) (evCode (EventIDVal.raw s)) = false) ∧
    (∀ l : List Int, evMatches (some l) (evCode EventIDVal.missing) = false) := by
  refine ⟨fun n => rfl, ?_, fun s l => rfl, fun l => rfl⟩
  intro n₁ n₂ h ids
  cases ids with
  | none => rfl
  | some l => simp [evCode, evMatches, h]

/-- Claim C9, witness: 70160 and 4624 differ by exactly 65536, so the
filter cannot tell them apart. -/
theorem eventid_low16_filter_witness :
    evMatches (some [4624]) (evCode (EventIDVal.num 70160))
      = evMatches (some [4624]) (evCode (EventIDVal.num 4624)) :=
  eventid_low16_filter.2.1 70160 4624 (by decide) (some [4624])

/-- Claim C10: if reading fails partway through the scan after a
successful open, get_event_logs returns the matching entries accumulated
so far with one diagnostic appended at the end; the result can mix data
records with a diagnostic, and its length reaches max_events plus one
when max_events is zero. -/
theorem midread_failure_appends_diagnostic :
    (∀ (ids : Option (List Int)) (maxE : Nat) (pre : List LogEntry) (bad : LogEntry)
        (rest : List LogEntry),
      (∀ e ∈ pre, entryMatches ids e = true → e.procFails = false) →
      entryMatches ids bad = true →
      bad.procFails = true →
      (matchLines ids pre).length < maxE →
      get_event_logs (OpenResult.ok (ReadResult.ok (pre ++ bad :: rest))) ids maxE
        = matchLines ids pre ++ [readErr bad.errMsg]) ∧
    (∀ (m : String) (ids : Option (List Int)) (maxE : Nat),
      get_event_logs (OpenResult.ok (ReadResult.fail m)) ids maxE = [readErr m]) ∧
    get_event_logs (OpenResult.ok (ReadResult.ok
        [⟨EventIDVal.num 7, "t1", "S", false, ""⟩,
         ⟨EventIDVal.num 8, "t2", "S", true, "kaputt"⟩])) none 5
      = ["t1  |  EventID: 7  |  Source: S", readErr "kaputt"] ∧
    (get_event_logs (OpenResult.ok (ReadResult.ok
        [⟨EventIDVal.num 8, "t2", "S", true, "kaputt"⟩])) none 0).length = 0 + 1 := by
  refine ⟨?_, fun m ids maxE => rfl, by decide, by decide⟩
  intro ids maxE pre bad rest hok hbm hbf hlt
  have h := scanGo_fail ids maxE bad hbm hbf pre rest 0 hok (by omega)
  simpa [get_event_logs] using h

/-- Claim C10, witness: one good matching entry followed by one whose
processing raises yields the data line and then the diagnostic. -/
theorem midread_failure_appends_diagnostic_witness :
    get_event_logs (OpenResult.ok (ReadResult.ok
        [⟨EventIDVal.num 7, "t1", "S", false, ""⟩,
         ⟨EventIDVal.num 8, "t2", "S", true, "kaputt"⟩])) none 5
      = ["t1  |  EventID: 7  |  Source: S",
         "Fehler beim Lesen des EventLogs: kaputt"] := by
  have h := midread_failure_appends_diagnostic.1 none 5
    [⟨EventIDVal.num 7, "t1", "S", false, ""⟩]
    ⟨EventIDVal.num 8, "t2", "S", true, "kaputt"⟩ []
    (by decide) (by decide) (by decide) (by decide)
  exact h.trans (by decide)

end WinActivity
